import Mathlib

/-!
# Verification of the represence presence server

A shallow embedding, in Lean 4, of the core of the `represence` server
(`src/main.rs`, `src/web_server.rs`, `src/vscode_client.rs`): the process-scan
engine with its TTL cache and change-detection hash, the adaptive scheduler
tick, the VS Code enrichment throttle, and the distributor (shared state plus
broadcast fan-out).  Rust machine integers are modelled as `Nat` with explicit
reduction modulo `2 ^ 64` (resp. `2 ^ 32`) where wrapping matters; timestamps
are `Nat` seconds; fallible effects (reading `/proc`, the enrichment fetch)
are modelled as `Option` parameters supplied by the environment.
-/

/- ### Timing constants (src/main.rs lines 15-20) -/

def MAX_CONCURRENT_TASKS : Nat := 50
def FAST_UPDATE_INTERVAL_SECS : Nat := 1
def SLOW_UPDATE_INTERVAL_SECS : Nat := 3
def PROCESS_CACHE_TTL_SECS : Nat := 1
def VSCODE_CHECK_INTERVAL_SECS : Nat := 2
def IDLE_THRESHOLD_COUNT : Nat := 3

/-- The literal `Duration::from_secs(1)` wrapped around the VS Code
connection at src/main.rs line 240. -/
def VSCODE_CONNECT_TIMEOUT_SECS : Nat := 1

/- ### Data model (src/main.rs lines 22-46, src/vscode_client.rs lines 9-22) -/

/-- `TieredApp` (src/main.rs lines 22-26): a watch-list entry; `name` is the
name prefix looked for, `tier` the display priority (lower = higher). -/
structure TieredApp where
  name : String
  tier : Nat
deriving DecidableEq, Repr

/-- `RunningApp` (src/main.rs lines 28-32): a detected process; `name` is the
resolved executable base name, `tier` copied from the matching watch entry. -/
structure RunningApp where
  name : String
  tier : Nat
deriving DecidableEq, Repr

/-- `OutputData` (src/main.rs lines 34-37): the single published artifact. -/
structure OutputData where
  text : String
deriving DecidableEq, Repr

/-- `vscode_client::FileInfo` (src/vscode_client.rs lines 9-22). -/
structure FileInfo where
  file_name : String
  extension : String
  full_path : String
  language_id : String
  line_count : Nat
  word_count : Nat
  timestamp : Nat
deriving DecidableEq, Repr

/-- Rust `str::starts_with` compares the UTF-8 bytes of the candidate text
against the pattern; for two valid UTF-8 strings this is exactly prefix order
on their character sequences. -/
def str_starts_with (s p : String) : Bool := p.data.isPrefixOf s.data

/- ### DefaultHasher = SipHash-1-3 with keys (0, 0)
(std::collections::hash_map::DefaultHasher, std/src/hash/sip.rs), used by
`ProcessCache::calculate_process_hash` (src/main.rs lines 63-73). -/

/-- `u64::rotate_left` on a value already reduced modulo `2 ^ 64`. -/
def rotl64 (x n : Nat) : Nat := ((x <<< n) % 2 ^ 64) ||| (x >>> (64 - n))

/-- The four 64-bit words of the SipHash internal state. -/
structure SipState where
  v0 : Nat
  v1 : Nat
  v2 : Nat
  v3 : Nat

/-- One SipHash compression round (the `compress!` macro of sip.rs). -/
def sipRound (s : SipState) : SipState :=
  let v0 := (s.v0 + s.v1) % 2 ^ 64
  let v1 := rotl64 s.v1 13
  let v1 := v1 ^^^ v0
  let v0 := rotl64 v0 32
  let v2 := (s.v2 + s.v3) % 2 ^ 64
  let v3 := rotl64 s.v3 16
  let v3 := v3 ^^^ v2
  let v0 := (v0 + v3) % 2 ^ 64
  let v3 := rotl64 v3 21
  let v3 := v3 ^^^ v0
  let v2 := (v2 + v1) % 2 ^ 64
  let v1 := rotl64 v1 17
  let v1 := v1 ^^^ v2
  let v2 := rotl64 v2 32
  ⟨v0, v1, v2, v3⟩

/-- Absorb one 64-bit message word: SipHash-1-3 runs one compression round
per word (`c_rounds` for `Sip13Rounds`). -/
def sipAbsorb (s : SipState) (m : Nat) : SipState :=
  let s := { s with v3 := s.v3 ^^^ m }
  let s := sipRound s
  { s with v0 := s.v0 ^^^ m }

/-- Assemble a little-endian 64-bit (or shorter, for the tail) word from a
byte list, first byte least significant. -/
def bytesToWordLE (bs : List Nat) : Nat := bs.foldr (fun b acc => b + 256 * acc) 0

/-- Process the byte stream: full 8-byte words through `sipAbsorb`, then the
final word `(length mod 256) <<< 56 ||| tail`, the `v2 ^^^ 0xff` twist and
three finalization rounds (`d_rounds`), returning `v0 ^^^ v1 ^^^ v2 ^^^ v3`. -/
def sipBody (s : SipState) (bs : List Nat) (len : Nat) : Nat :=
  match bs with
  | b0 :: b1 :: b2 :: b3 :: b4 :: b5 :: b6 :: b7 :: rest =>
      sipBody (sipAbsorb s (bytesToWordLE [b0, b1, b2, b3, b4, b5, b6, b7])) rest len
  | rest =>
      let b := ((len % 256) <<< 56) ||| bytesToWordLE rest
      let s := sipAbsorb s b
      let s := { s with v2 := s.v2 ^^^ 0xff }
      let s := sipRound (sipRound (sipRound s))
      s.v0 ^^^ s.v1 ^^^ s.v2 ^^^ s.v3

/-- SipHash-1-3 of a byte stream with keys `k0 = k1 = 0`, exactly
`DefaultHasher::new()` followed by the writes and `finish()`. -/
def siphash13 (bs : List Nat) : Nat :=
  sipBody ⟨0 ^^^ 0x736f6d6570736575, 0 ^^^ 0x646f72616e646f6d,
           0 ^^^ 0x6c7967656e657261, 0 ^^^ 0x7465646279746573⟩ bs bs.length

/-- UTF-8 encoding of a single code point. -/
def utf8EncodeChar (c : Nat) : List Nat :=
  if c < 0x80 then [c]
  else if c < 0x800 then
    [0xC0 ||| (c >>> 6), 0x80 ||| (c &&& 0x3F)]
  else if c < 0x10000 then
    [0xE0 ||| (c >>> 12), 0x80 ||| ((c >>> 6) &&& 0x3F), 0x80 ||| (c &&& 0x3F)]
  else
    [0xF0 ||| (c >>> 18), 0x80 ||| ((c >>> 12) &&& 0x3F),
     0x80 ||| ((c >>> 6) &&& 0x3F), 0x80 ||| (c &&& 0x3F)]

/-- The UTF-8 bytes of a Rust `String`. -/
def strBytes (s : String) : List Nat := s.data.flatMap (fun c => utf8EncodeChar c.toNat)

/-- `u32::to_ne_bytes` on the target platforms (x86-64 / aarch64 Linux,
little-endian), as written by the default `Hasher::write_u32`. -/
def le32 (n : Nat) : List Nat :=
  [n % 256, n / 256 % 256, n / 2 ^ 16 % 256, n / 2 ^ 24 % 256]

/-- The bytes one `RunningApp` feeds to the hasher (src/main.rs lines 69-70):
`String::hash` writes the UTF-8 bytes followed by a `0xff` terminator, then
`u32::hash` writes the four native-endian tier bytes. -/
def appHashBytes (a : RunningApp) : List Nat :=
  strBytes a.name ++ [0xff] ++ le32 (a.tier % 2 ^ 32)

/-- `ProcessCache::calculate_process_hash` (src/main.rs lines 63-73): one
`DefaultHasher`, each process's name and tier hashed in list order. -/
def calculate_process_hash (processes : List RunningApp) : Nat :=
  siphash13 (processes.flatMap appHashBytes)

/- ### ProcessCache (src/main.rs lines 40-96)
The Rust `HashMap<String, RunningApp>` is modelled as an association list;
`insert` replaces in place or appends, `values` iterates in list order (the
real map's iteration order is unspecified but fixed per map instance, so the
list order stands for one realizable iteration order). -/

structure ProcessCache where
  processes : List (String × RunningApp)
  last_updated : Nat
  last_process_count : Nat
  process_list_hash : Nat
deriving DecidableEq, Repr

/-- `ProcessCache::new` (src/main.rs lines 49-56); `UNIX_EPOCH` is instant 0. -/
def ProcessCache.new : ProcessCache := ⟨[], 0, 0, 0⟩

/-- `ProcessCache::is_expired` (src/main.rs lines 58-60): `elapsed()` errs
(yielding `Duration::MAX`, hence expired) when the clock ran backwards. -/
def ProcessCache.is_expired (c : ProcessCache) (now : Nat) : Bool :=
  if now < c.last_updated then true
  else PROCESS_CACHE_TTL_SECS < now - c.last_updated

/-- `ProcessCache::has_processes_changed` (src/main.rs lines 75-80). -/
def ProcessCache.has_processes_changed (c : ProcessCache) (new_processes : List RunningApp) : Bool :=
  calculate_process_hash new_processes != c.process_list_hash
    || new_processes.length != c.last_process_count

/-- `HashMap::insert`: replace the value at an existing key, else add. -/
def hmInsert (m : List (String × RunningApp)) (k : String) (v : RunningApp) :
    List (String × RunningApp) :=
  if m.any (fun p => p.1 == k) then
    m.map (fun p => if p.1 == k then (k, v) else p)
  else m ++ [(k, v)]

/-- `ProcessCache::update_with_change_detection` (src/main.rs lines 82-95):
returns the change flag and the updated cache. -/
def ProcessCache.update_with_change_detection (c : ProcessCache)
    (new_processes : List RunningApp) (now : Nat) : Bool × ProcessCache :=
  let has_changed := c.has_processes_changed new_processes
  let m := new_processes.foldl (fun m app => hmInsert m app.name app) []
  (has_changed,
   { processes := m
     last_updated := now
     last_process_count := new_processes.length
     process_list_hash := calculate_process_hash new_processes })

/- ### Scan engine (src/main.rs lines 99-174)
The `/proc` walk is abstracted as the list of per-process resolutions the
spawned tasks produce: `some name` when the `exe` link resolved to base name
`name`, `none` when the process vanished or resolution failed.  Task results
are collected in this list order. -/

/-- The per-task match (src/main.rs lines 133-153): the first watch entry
whose name the resolved base name starts with determines the tier. -/
def scanMatches (apps_to_check : List TieredApp) (procNames : List (Option String)) :
    List RunningApp :=
  procNames.filterMap (fun res =>
    res.bind (fun app_name =>
      (apps_to_check.find? (fun check => str_starts_with app_name check.name)).map
        (fun check => { name := app_name, tier := check.tier })))

/-- `running_apps.sort_by(|a, b| a.tier.cmp(&b.tier))` (src/main.rs line 168):
a stable sort on the tier alone. -/
def sort_by_tier (l : List RunningApp) : List RunningApp :=
  List.insertionSort (fun a b => a.tier ≤ b.tier) l

/-- The fresh-scan result (src/main.rs lines 112-168): matches collected from
the process table, stably sorted by tier. -/
def fresh_scan (apps_to_check : List TieredApp) (procNames : List (Option String)) :
    List RunningApp :=
  sort_by_tier (scanMatches apps_to_check procNames)

/-- `get_running_apps_optimized` (src/main.rs lines 99-174).  `now` is the
current instant; `procDir` is `none` when reading `/proc` itself fails and
otherwise carries the per-process resolutions.  Returns the pair the Rust
function returns together with the cache it leaves behind. -/
def get_running_apps_optimized (apps_to_check : List TieredApp) (cache : ProcessCache)
    (now : Nat) (procDir : Option (List (Option String))) :
    (List RunningApp × Bool) × ProcessCache :=
  if cache.is_expired now = false then
    ((cache.processes.map Prod.snd |>.filter
        (fun app => apps_to_check.any (fun check => str_starts_with app.name check.name)),
      false), cache)
  else
    match procDir with
    | none => (([], false), cache)
    | some procNames =>
        let running_apps := fresh_scan apps_to_check procNames
        let r := cache.update_with_change_detection running_apps now
        ((running_apps, r.1), r.2)

/- ### Rendering (src/main.rs lines 177-199, 262-266) -/

/-- `is_vscode_running` (src/main.rs lines 177-179). -/
def is_vscode_running (apps : List RunningApp) : Bool :=
  apps.any (fun app => str_starts_with app.name "code")

/-- `generate_app_text` (src/main.rs lines 182-199); the guards are tried in
the source's order and the default arm echoes the resolved name. -/
def generate_app_text (app : RunningApp) (vscode_file_info : Option FileInfo) : String :=
  if str_starts_with app.name "code" then
    match vscode_file_info with
    | some file_info => "editing " ++ file_info.file_name ++ " in Visual Studio Code"
    | none => "VS Code"
  else if str_starts_with app.name "zen" then "browsing with Zen browser"
  else if str_starts_with app.name "chrome" then "probably on her work account on Chrome"
  else if str_starts_with app.name "discord" then "yapping on Discord"
  else if str_starts_with app.name "steam" then "gaming on Steam"
  else if str_starts_with app.name "vlc" then
    "watching a movie (will probably log it in letterboxd/bilgi42"
  else if str_starts_with app.name "stremio" then "legally streaming some content in stremio"
  else if str_starts_with app.name "ghostty" then "using the best terminal emulator (ghostty)"
  else app.name

/-- The per-tick text (src/main.rs lines 262-266): the first element of the
returned match list, or the fixed idle text. -/
def render_output (first : Option RunningApp) (vscode_file_info : Option FileInfo) : String :=
  match first with
  | some app => generate_app_text app vscode_file_info
  | none => "idle"

/-- The watch list hard-coded in `update_presence_data`
(src/main.rs lines 203-219). -/
def apps_to_check_main : List TieredApp :=
  [⟨"code", 1⟩, ⟨"discord", 1⟩,
   ⟨"zen", 2⟩, ⟨"chrome", 2⟩, ⟨"steam", 2⟩,
   ⟨"vlc", 3⟩, ⟨"stremio", 3⟩,
   ⟨"ghostty", 4⟩]

/- ### VS Code enrichment phase (src/main.rs lines 222-223, 230-260)
The timeout-wrapped `connect_to_vscode_once` call is abstracted by a `fetch`
parameter: `some fi` when it returns `Ok(Ok(fi))` within the timeout, `none`
for every collapsed failure (`Ok(Err(_))` or the timeout's `Err(_)`). -/

/-- The scheduler's enrichment bookkeeping
(`last_vscode_check`, `cached_vscode_info`, src/main.rs lines 222-223). -/
structure VsState where
  last_vscode_check : Nat
  cached_vscode_info : Option FileInfo
deriving DecidableEq, Repr

/-- `last_vscode_check.elapsed().unwrap_or(Duration::MAX) > bound`
(src/main.rs lines 234-235): `elapsed()` errs, giving `Duration::MAX` and so
`true`, exactly when the clock ran backwards. -/
def elapsed_gt (last now bound : Nat) : Bool :=
  if now < last then true else bound < now - last

/-- One tick's enrichment phase (src/main.rs lines 230-260).  Returns
`(vscode_file_info, new state, invoked)` where `invoked` records whether
`connect_to_vscode_once` was called on this tick. -/
def vscode_phase (running_apps : List RunningApp) (st : VsState) (now : Nat)
    (fetch : Option FileInfo) : Option FileInfo × VsState × Bool :=
  if is_vscode_running running_apps then
    if elapsed_gt st.last_vscode_check now VSCODE_CHECK_INTERVAL_SECS then
      match fetch with
      | some file_info => (some file_info, ⟨now, some file_info⟩, true)
      | none => (st.cached_vscode_info, ⟨st.last_vscode_check, st.cached_vscode_info⟩, true)
    else
      (st.cached_vscode_info, st, false)
  else
    (none, ⟨st.last_vscode_check, none⟩, false)

/- ### Scheduler tick bookkeeping (src/main.rs lines 224-225, 268-299) -/

/-- The scheduler's change-tracking counters
(`idle_count`, `last_output_text`, src/main.rs lines 224-225).  `idle_count`
is declared `0u32` in the source: a 32-bit counter, here a `Nat` kept below
`2 ^ 32` by the tick update. -/
structure SchedulerState where
  idle_count : Nat
  last_output_text : String
deriving DecidableEq, Repr

/-- The tail of one scheduler tick (src/main.rs lines 268-299): compares the
rendered text with the previously published one, publishes on change, resets
or bumps `idle_count`, and picks the sleep before the next tick.  The bump
`idle_count += 1` is `u32` arithmetic: in a release build it wraps to 0 at
`u32::MAX` (a debug build would panic there instead), hence the reduction
modulo `2 ^ 32`.  Returns `(published, new state, sleep seconds)`. -/
def scheduler_tick_update (st : SchedulerState) (output_text : String)
    (processes_changed : Bool) : Option OutputData × SchedulerState × Nat :=
  let output_changed := output_text != st.last_output_text
  let (published, st1) :=
    if output_changed then
      (some { text := output_text }, SchedulerState.mk 0 output_text)
    else if processes_changed then
      (none, SchedulerState.mk 0 st.last_output_text)
    else
      (none, SchedulerState.mk ((st.idle_count + 1) % 2 ^ 32) st.last_output_text)
  let sleep_secs :=
    if IDLE_THRESHOLD_COUNT ≤ st1.idle_count then SLOW_UPDATE_INTERVAL_SECS
    else FAST_UPDATE_INTERVAL_SECS
  (published, st1, sleep_secs)

/- ### Distributor (src/web_server.rs lines 17-18, 46-51, 60-83;
src/main.rs lines 276-283, 314-317)
The `RwLock<OutputData>` holds the canonical state; each publish overwrites
it and, inside the same critical section, enqueues the new state on every
subscribed broadcast receiver. -/

/-- The canonical shared state after a sequence of publishes: each publish
overwrites the `RwLock` contents (src/main.rs line 279). -/
def applyPublishes (init : OutputData) (pubs : List OutputData) : OutputData :=
  pubs.foldl (fun _ s => s) init

/-- `broadcast::channel(32)` (src/web_server.rs line 22): the channel retains
at most this many pending values per receiver. -/
def BROADCAST_CAPACITY : Nat := 32

/-- One subscriber's broadcast receiver: nothing is buffered before
`broadcaster.subscribe()`; after it, publishes are enqueued in order into a
ring of `BROADCAST_CAPACITY` values.  When a publish finds the receiver
already that far behind, the oldest pending value is evicted and the receiver
is marked `lagged`: its next `recv()` will report `RecvError::Lagged`. -/
structure BroadcastConn where
  subscribed : Bool
  buf : List OutputData
  lagged : Bool
deriving DecidableEq, Repr

/-- One publish (src/main.rs lines 277-283): overwrite the shared state and
enqueue on the receiver if it is subscribed, evicting the oldest pending
value past the channel capacity. -/
def distPublish (shared : OutputData) (conn : BroadcastConn) (s : OutputData) :
    OutputData × BroadcastConn :=
  (s,
   if conn.subscribed then
     let buf := conn.buf ++ [s]
     if BROADCAST_CAPACITY < buf.length then
       { conn with buf := buf.tail, lagged := true }
     else
       { conn with buf := buf }
   else conn)

/-- Run a list of publishes through the shared state and one receiver. -/
def runPublishes (st : OutputData × BroadcastConn) (pubs : List OutputData) :
    OutputData × BroadcastConn :=
  pubs.foldl (fun acc s => distPublish acc.1 acc.2 s) st

/-- The values the `while let Ok(data) = rx.recv()` loop still forwards
(src/web_server.rs lines 75-83): the loop ends at the first receive error, so
a lagged receiver (whose next `recv()` is `Err(RecvError::Lagged)`) forwards
nothing further, while an in-sync receiver forwards every pending value in
order. -/
def drainStream (conn : BroadcastConn) : List OutputData :=
  if conn.lagged then [] else conn.buf

/-- `websocket_connection` (src/web_server.rs lines 60-83) from one client's
point of view, deliveries listed in send order: `pre` are the publishes before
`broadcaster.subscribe()`, `mid` those racing between the subscription and the
initial `shared_data.read()`, `post` those after it.  The handler first sends
the snapshot it reads, then runs the receive loop; the schedule modelled here
drains after the `post` publishes, the worst case for lagging. -/
def websocket_delivered (init : OutputData) (pre mid post : List OutputData) :
    List OutputData :=
  let st0 := runPublishes (init, ⟨false, [], false⟩) pre
  let st1 := (st0.1, { st0.2 with subscribed := true })
  let st2 := runPublishes st1 mid
  let snapshot := st2.1
  let st3 := runPublishes st2 post
  snapshot :: drainStream st3.2

/-- `get_presence` (src/web_server.rs lines 46-51): a pull query clones the
canonical shared state. -/
def get_presence (shared : OutputData) : OutputData := shared

/-- The state installed before the scheduler task starts
(src/main.rs lines 314-317). -/
def initial_output : OutputData := { text := "starting..." }

/- ### Helper lemmas -/

theorem applyPublishes_append (d : OutputData) (xs ys : List OutputData) :
    applyPublishes d (xs ++ ys) = applyPublishes (applyPublishes d xs) ys := by
  simp [applyPublishes, List.foldl_append]

theorem runPublishes_unsub (d : OutputData) (ps : List OutputData) :
    runPublishes (d, ⟨false, [], false⟩) ps = (applyPublishes d ps, ⟨false, [], false⟩) := by
  induction ps generalizing d with
  | nil => rfl
  | cons p ps ih => simpa [runPublishes, applyPublishes, distPublish] using ih p

theorem runPublishes_fst (d : OutputData) (c : BroadcastConn) (ps : List OutputData) :
    (runPublishes (d, c) ps).1 = applyPublishes d ps := by
  induction ps generalizing d c with
  | nil => rfl
  | cons p ps ih => exact ih p (distPublish d c p).2

theorem runPublishes_append (st : OutputData × BroadcastConn) (xs ys : List OutputData) :
    runPublishes st (xs ++ ys) = runPublishes (runPublishes st xs) ys := by
  simp [runPublishes, List.foldl_append]

theorem isSuffix_append_right {l1 l2 t : List OutputData} (h : List.IsSuffix l1 l2) :
    List.IsSuffix (l1 ++ t) (l2 ++ t) := by
  rcases h with ⟨s, rfl⟩
  exact ⟨s, by simp⟩

/-- Whatever the receiver's starting queue and lag flag, its queue after more
publishes is a suffix of the starting queue followed by those publishes: each
step appends the new value and at most evicts from the front. -/
theorem runPublishes_buf_suffix (d : OutputData) (b ps : List OutputData) (lg : Bool) :
    List.IsSuffix (runPublishes (d, ⟨true, b, lg⟩) ps).2.buf (b ++ ps) := by
  induction ps generalizing d b lg with
  | nil => simp [runPublishes]
  | cons p ps ih =>
      by_cases hc : BROADCAST_CAPACITY < b.length + 1
      · have step : runPublishes (d, ⟨true, b, lg⟩) (p :: ps)
            = runPublishes (p, ⟨true, (b ++ [p]).tail, true⟩) ps := by
          simp [runPublishes, distPublish, hc]
        rw [step]
        refine (ih p _ true).trans ?_
        have h2 := isSuffix_append_right (t := ps) (List.tail_suffix (b ++ [p]))
        simpa using h2
      · have step : runPublishes (d, ⟨true, b, lg⟩) (p :: ps)
            = runPublishes (p, ⟨true, b ++ [p], lg⟩) ps := by
          simp [runPublishes, distPublish, hc]
        rw [step]
        simpa using ih p (b ++ [p]) lg

/-- While the receiver's queue stays within the channel capacity, nothing is
evicted and it never lags: the publishes simply accumulate in order. -/
theorem runPublishes_within_cap (d : OutputData) (b ps : List OutputData)
    (h : b.length + ps.length ≤ BROADCAST_CAPACITY) :
    runPublishes (d, ⟨true, b, false⟩) ps = (applyPublishes d ps, ⟨true, b ++ ps, false⟩) := by
  induction ps generalizing d b with
  | nil => simp [runPublishes, applyPublishes]
  | cons p ps ih =>
      have hl : b.length + (ps.length + 1) ≤ BROADCAST_CAPACITY := by
        simpa using h
      have hc : ¬ BROADCAST_CAPACITY < b.length + 1 := by omega
      have step : runPublishes (d, ⟨true, b, false⟩) (p :: ps)
          = runPublishes (p, ⟨true, b ++ [p], false⟩) ps := by
        simp [runPublishes, distPublish, hc]
      rw [step]
      have hrec : (b ++ [p]).length + ps.length ≤ BROADCAST_CAPACITY := by
        simp only [List.length_append, List.length_cons, List.length_nil]
        omega
      simpa [applyPublishes] using ih p (b ++ [p]) hrec

/-- Within the channel capacity the subscriber is sent the canonical snapshot
read after the racing publishes `mid`, then exactly the states published
since the subscription, in publish order. -/
theorem websocket_delivered_within_cap (init : OutputData) (pre mid post : List OutputData)
    (h : mid.length + post.length ≤ BROADCAST_CAPACITY) :
    websocket_delivered init pre mid post
      = applyPublishes init (pre ++ mid) :: (mid ++ post) := by
  have h1 : (List.nil (α := OutputData)).length + mid.length ≤ BROADCAST_CAPACITY := by
    simpa using Nat.le_trans (Nat.le_add_right mid.length post.length) h
  have h2 : (List.nil (α := OutputData) ++ mid).length + post.length ≤ BROADCAST_CAPACITY := by
    simpa using h
  simp only [websocket_delivered, runPublishes_unsub]
  rw [runPublishes_within_cap _ _ _ h1, runPublishes_within_cap _ _ _ h2]
  simp [drainStream, applyPublishes_append]

theorem mem_sort_by_tier (a : RunningApp) (l : List RunningApp) :
    a ∈ sort_by_tier l ↔ a ∈ l :=
  (List.perm_insertionSort _ l).mem_iff

theorem mem_scanMatches (W : List TieredApp) (P : List (Option String)) (a : RunningApp) :
    a ∈ scanMatches W P ↔
      ∃ w : TieredApp, some a.name ∈ P
        ∧ W.find? (fun check => str_starts_with a.name check.name) = some w
        ∧ a.tier = w.tier := by
  unfold scanMatches
  rw [List.mem_filterMap]
  constructor
  · rintro ⟨res, hres, heq⟩
    match res with
    | none => exact Option.noConfusion heq
    | some n =>
        rcases Option.map_eq_some'.mp heq with ⟨w, hfind, ha⟩
        subst ha
        exact ⟨w, hres, hfind, rfl⟩
  · rintro ⟨w, hmem, hfind, htier⟩
    obtain ⟨an, atier⟩ := a
    change atier = w.tier at htier
    subst htier
    refine ⟨some an, hmem, ?_⟩
    show ((W.find? fun check => str_starts_with an check.name).map
        fun check => RunningApp.mk an check.tier) = some ⟨an, w.tier⟩
    rw [hfind]
    rfl

theorem editing_text_ne_starting (f : String) :
    ("editing " ++ f ++ " in Visual Studio Code") ≠ "starting..." := by
  intro h
  have h1 : ("editing " ++ f ++ " in Visual Studio Code").data.head? = some 'e' := by
    rw [String.data_append, String.data_append]
    rfl
  rw [h] at h1
  exact absurd h1 (by decide)

/- ### Claim theorems -/

/-- A cache state realizable after a fresh scan found `zen` (tier 2) and
`code` (tier 1): the entry order models the backing `HashMap`'s iteration
order, which is seed-dependent and unrelated both to insertion order and to
tier, so the map may well present `zen` before `code`. -/
def cacheBug : ProcessCache :=
  { processes := [("zen", ⟨"zen", 2⟩), ("code", ⟨"code", 1⟩)]
    last_updated := 100
    last_process_count := 2
    process_list_hash := calculate_process_hash [⟨"code", 1⟩, ⟨"zen", 2⟩] }

/-- C1: the claim says the first element of the list returned by
`get_running_apps_optimized` has the numerically lowest tier among current
matches, whether it came from a cache hit or from a fresh scan.  On the
cache-hit path (src/main.rs lines 104-110) the code returns the cached map's
values unsorted, so the first element can be `zen` (tier 2) while `code`
(tier 1) is also among the matches; a fresh scan over the same two processes
sorts by tier and puts `code` first.  This theorem evaluates both paths at
that failing input. -/
theorem C1_cache_hit_primary_not_lowest_tier :
    (get_running_apps_optimized apps_to_check_main cacheBug 100 none).1.1.head?
        = some ⟨"zen", 2⟩
    ∧ (⟨"code", 1⟩ : RunningApp)
        ∈ (get_running_apps_optimized apps_to_check_main cacheBug 100 none).1.1
    ∧ (fresh_scan apps_to_check_main [some "zen", some "code"]).head?
        = some ⟨"code", 1⟩
    ∧ (1 : Nat) < 2 := by
  refine ⟨by decide, by decide, by decide, by decide⟩

/-- The matches of one scan that resolved `code` before `discord`. -/
def ps_scan_order_1 : List RunningApp := [⟨"code", 1⟩, ⟨"discord", 1⟩]

/-- The matches of a scan of the same two processes whose tasks completed in
the other order; both share tier 1, so the stable tier sort keeps either
completion order. -/
def ps_scan_order_2 : List RunningApp := [⟨"discord", 1⟩, ⟨"code", 1⟩]

/-- C2 counterexample: the two lists are permutations of one another carrying
the same multiset of (matchedName, tier) pairs and the same count, both arise
as fresh-scan results for the same process set, yet
`calculate_process_hash` (a sequential SipHash-1-3 over the list order)
distinguishes them, and `has_processes_changed` consequently reports a change
after a refresh that stored the first order. -/
theorem C2_signature_not_permutation_invariant :
    ps_scan_order_1.Perm ps_scan_order_2
    ∧ ps_scan_order_1.length = ps_scan_order_2.length
    ∧ fresh_scan apps_to_check_main [some "code", some "discord"] = ps_scan_order_1
    ∧ fresh_scan apps_to_check_main [some "discord", some "code"] = ps_scan_order_2
    ∧ calculate_process_hash ps_scan_order_1 ≠ calculate_process_hash ps_scan_order_2
    ∧ (ProcessCache.new.update_with_change_detection ps_scan_order_1 5).2.has_processes_changed
        ps_scan_order_2 = true := by
  refine ⟨by decide, by decide, by decide, by decide, by decide, by decide⟩

/-- C2 amended: `contentSignature` is a hash of the ordered sequence of
(matchedName, tier) pairs, not of their multiset.  After a refresh stores the
snapshot of sequence `ps`, a later sequence `qs` is flagged as changed exactly
when its sequence hash or its count differs from the stored ones; equal
sequences always give equal signature and count.  (Invariance under
permutation fails: see the counterexample.) -/
theorem C2_change_detection_is_sequence_based (ps qs : List RunningApp)
    (c : ProcessCache) (t : Nat) :
    ((c.update_with_change_detection ps t).2.has_processes_changed qs
        = (calculate_process_hash qs != calculate_process_hash ps
            || qs.length != ps.length))
    ∧ (ps = qs → calculate_process_hash ps = calculate_process_hash qs
        ∧ ps.length = qs.length) := by
  constructor
  · rfl
  · rintro rfl
    exact ⟨rfl, rfl⟩

/-- Witness for the amended C2 at a concrete input: an unchanged sequence is
not flagged as changed. -/
theorem C2_witness :
    ((ProcessCache.new.update_with_change_detection ps_scan_order_1 5).2.has_processes_changed
        ps_scan_order_1) = false := by
  have h := (C2_change_detection_is_sequence_based ps_scan_order_1 ps_scan_order_1
    ProcessCache.new 5).1
  rw [h]
  decide

/-- C8 counterexample: the enrichment timeout (1 s, src/main.rs line 240) is
not strictly shorter than the fast tick interval (1 s, src/main.rs line 16). -/
theorem C8_timeout_not_strictly_shorter :
    (VSCODE_CONNECT_TIMEOUT_SECS < FAST_UPDATE_INTERVAL_SECS) ↔ False := by
  decide

/-- C8 amended: the enrichment timeout equals the fast tick interval (so a
hung endpoint can delay a tick by up to one full fast interval, but no more)
and is strictly shorter than the slow interval used while idle. -/
theorem C8_timeout_equals_fast_below_slow :
    VSCODE_CONNECT_TIMEOUT_SECS = FAST_UPDATE_INTERVAL_SECS
    ∧ VSCODE_CONNECT_TIMEOUT_SECS < SLOW_UPDATE_INTERVAL_SECS := by
  decide

/-- C3 counterexample: `idle_count` is a `u32`, so at the state reached after
`2 ^ 32 - 1` consecutive unchanged ticks the next unchanged tick does not
increment the counter by 1 — in a release build the counter wraps to 0 (a
debug build would panic instead), after which the tick even sleeps the fast
interval although nothing changed. -/
theorem C3_counter_wraps_at_u32_max :
    (scheduler_tick_update ⟨2 ^ 32 - 1, "idle"⟩ "idle" false).2.1.idle_count = 0
    ∧ (scheduler_tick_update ⟨2 ^ 32 - 1, "idle"⟩ "idle" false).2.1.idle_count
        ≠ 2 ^ 32 - 1 + 1
    ∧ (scheduler_tick_update ⟨2 ^ 32 - 1, "idle"⟩ "idle" false).2.2
        = FAST_UPDATE_INTERVAL_SECS := by
  refine ⟨by decide, by decide, by decide⟩

/-- C3 amended: on every tick, `idle_count` is reset to 0 when the rendered
text differs from the previously published text or the scan-level change flag
is set, and incremented by 1 modulo `2 ^ 32` otherwise (the counter is a
`u32` and, in release builds, wraps at `u32::MAX`); the sleep before the next
tick is the slow interval exactly when the updated counter has reached the
idle threshold, and the fast interval exactly otherwise
(src/main.rs lines 224, 268-297). -/
theorem C3_idle_counter_and_adaptive_delay (st : SchedulerState) (output_text : String)
    (processes_changed : Bool) :
    ((scheduler_tick_update st output_text processes_changed).2.1.idle_count
        = if (output_text != st.last_output_text || processes_changed) then 0
          else (st.idle_count + 1) % 2 ^ 32)
    ∧ ((scheduler_tick_update st output_text processes_changed).2.2
          = SLOW_UPDATE_INTERVAL_SECS
        ↔ IDLE_THRESHOLD_COUNT
            ≤ (scheduler_tick_update st output_text processes_changed).2.1.idle_count)
    ∧ ((scheduler_tick_update st output_text processes_changed).2.2
          = FAST_UPDATE_INTERVAL_SECS
        ↔ (scheduler_tick_update st output_text processes_changed).2.1.idle_count
            < IDLE_THRESHOLD_COUNT) := by
  unfold scheduler_tick_update
  cases h1 : output_text != st.last_output_text <;>
    cases processes_changed <;>
      simp [h1, IDLE_THRESHOLD_COUNT, SLOW_UPDATE_INTERVAL_SECS, FAST_UPDATE_INTERVAL_SECS] <;>
        omega

/-- A cache whose snapshot was taken at instant 5 with one `zen` match. -/
def cacheWarm : ProcessCache :=
  { processes := [("zen", ⟨"zen", 2⟩)]
    last_updated := 5
    last_process_count := 1
    process_list_hash := calculate_process_hash [⟨"zen", 2⟩] }

/-- C4: while the snapshot is within the TTL, `get_running_apps_optimized`
mutates nothing, never touches the process table (the result is the same for
every `procDir`, including `none`), reports `changed = false`, and a second
call under the same conditions returns exactly the matches of the first
(src/main.rs lines 103-110). -/
theorem C4_within_ttl_no_scan_same_matches (c : ProcessCache) (W : List TieredApp)
    (t1 t2 : Nat) (d1 d2 : Option (List (Option String)))
    (h1 : c.is_expired t1 = false) (h2 : c.is_expired t2 = false) :
    (get_running_apps_optimized W c t1 d1).2 = c
    ∧ (get_running_apps_optimized W c t1 d1).1.2 = false
    ∧ (get_running_apps_optimized W ((get_running_apps_optimized W c t1 d1).2) t2 d2).1.1
        = (get_running_apps_optimized W c t1 d1).1.1
    ∧ (get_running_apps_optimized W ((get_running_apps_optimized W c t1 d1).2) t2 d2).1.2
        = false := by
  unfold get_running_apps_optimized
  rw [h1]
  simp [h2]

/-- Witness for C4: two back-to-back calls at instants 5 and 6 on a warm
cache, one with `/proc` unreadable and one with a process table that would
scan differently, still agree and report no change. -/
theorem C4_witness :
    (get_running_apps_optimized apps_to_check_main
        ((get_running_apps_optimized apps_to_check_main cacheWarm 5 none).2) 6
        (some [some "code"])).1.1
      = (get_running_apps_optimized apps_to_check_main cacheWarm 5 none).1.1
    ∧ (get_running_apps_optimized apps_to_check_main
        ((get_running_apps_optimized apps_to_check_main cacheWarm 5 none).2) 6
        (some [some "code"])).1.2 = false := by
  have h := C4_within_ttl_no_scan_same_matches cacheWarm apps_to_check_main 5 6 none
    (some [some "code"]) (by decide) (by decide)
  exact ⟨h.2.2.1, h.2.2.2⟩

/-- C5: the fresh-scan result contains exactly the resolved processes whose
executable base name starts with the name of some watch entry: every returned
`RunningApp` carries a resolved base name from the table, tagged with the
tier of the (first) matching watch entry, and every resolved name matching
some entry yields a returned element (src/main.rs lines 125-168). -/
theorem C5_scan_exactly_the_matching_processes (W : List TieredApp)
    (P : List (Option String)) :
    (∀ a : RunningApp, a ∈ fresh_scan W P ↔
        ∃ w : TieredApp, some a.name ∈ P
          ∧ W.find? (fun check => str_starts_with a.name check.name) = some w
          ∧ a.tier = w.tier)
    ∧ (∀ a ∈ fresh_scan W P, ∃ w ∈ W, str_starts_with a.name w.name = true)
    ∧ (∀ n : String, some n ∈ P → (∃ w ∈ W, str_starts_with n w.name = true) →
        ∃ a ∈ fresh_scan W P, a.name = n) := by
  have hmem : ∀ a : RunningApp, a ∈ fresh_scan W P ↔ a ∈ scanMatches W P :=
    fun a => mem_sort_by_tier a (scanMatches W P)
  refine ⟨fun a => (hmem a).trans (mem_scanMatches W P a), ?_, ?_⟩
  · intro a ha
    rcases (mem_scanMatches W P a).mp ((hmem a).mp ha) with ⟨w, _, hfind, _⟩
    exact ⟨w, List.mem_of_find?_eq_some hfind,
      @List.find?_some TieredApp (fun check => str_starts_with a.name check.name) w W hfind⟩
  · intro n hn ⟨w, hw, hsw⟩
    have hsome : (W.find? (fun check => str_starts_with n check.name)).isSome = true :=
      List.find?_isSome.mpr ⟨w, hw, hsw⟩
    rcases Option.isSome_iff_exists.mp hsome with ⟨w0, hfind⟩
    refine ⟨⟨n, w0.tier⟩, ?_, rfl⟩
    exact (hmem _).mpr ((mem_scanMatches W P ⟨n, w0.tier⟩).mpr ⟨w0, hn, hfind, rfl⟩)

/-- Witness for C5: the scan of a table holding a `zen-bin` process and a
vanished process against the main watch list returns exactly the one match. -/
theorem C5_witness :
    (⟨"zen-bin", 2⟩ : RunningApp) ∈ fresh_scan apps_to_check_main [none, some "zen-bin"] :=
  ((C5_scan_exactly_the_matching_processes apps_to_check_main [none, some "zen-bin"]).1
    ⟨"zen-bin", 2⟩).mpr ⟨⟨"zen", 2⟩, by decide, by decide, rfl⟩

/-- An enrichment record as the VS Code companion reports it. -/
def fiSample : FileInfo := ⟨"main.rs", "rs", "/proj/main.rs", "rust", 10, 20, 0⟩

/-- C6 counterexample: on a tick at instant 10 the fetch is invoked and fails;
because only a successful fetch updates `last_vscode_check`
(src/main.rs lines 243-252), the very next tick at instant 11 invokes the
fetch again — the two consecutive invocations are 1 s apart, less than the
2 s minimum interval. -/
theorem C6_failed_fetch_retried_next_tick :
    (vscode_phase [⟨"code", 1⟩] ⟨0, none⟩ 10 none).2.2 = true
    ∧ (vscode_phase [⟨"code", 1⟩]
        ((vscode_phase [⟨"code", 1⟩] ⟨0, none⟩ 10 none).2.1) 11 none).2.2 = true
    ∧ 11 - 10 < VSCODE_CHECK_INTERVAL_SECS := by
  refine ⟨by decide, by decide, by decide⟩

/-- C6 amended: the throttle is relative to the last successful fetch: a
fetch is invoked only when more than the minimum interval has elapsed since
`last_vscode_check`, and that timestamp is advanced exactly by a successful
invocation — a failed invocation leaves it unchanged, so the next tick may
retry immediately. -/
theorem C6_throttled_against_last_success (apps : List RunningApp) (st : VsState)
    (now : Nat) (fetch : Option FileInfo) :
    ((vscode_phase apps st now fetch).2.2 = true →
        elapsed_gt st.last_vscode_check now VSCODE_CHECK_INTERVAL_SECS = true)
    ∧ (∀ fi : FileInfo, fetch = some fi → (vscode_phase apps st now fetch).2.2 = true →
        (vscode_phase apps st now fetch).2.1.last_vscode_check = now)
    ∧ (fetch = none →
        (vscode_phase apps st now fetch).2.1.last_vscode_check = st.last_vscode_check)
    ∧ ((vscode_phase apps st now fetch).2.2 = false →
        (vscode_phase apps st now fetch).2.1.last_vscode_check = st.last_vscode_check) := by
  unfold vscode_phase
  cases hr : is_vscode_running apps <;>
    cases he : elapsed_gt st.last_vscode_check now VSCODE_CHECK_INTERVAL_SECS <;>
      cases fetch <;> simp_all

/-- Witness for the amended C6: a successful invocation at instant 10 (watch
set sees a `code` process, last check at epoch) advances the throttle
timestamp to 10. -/
theorem C6_witness :
    (vscode_phase [⟨"code", 1⟩] ⟨0, none⟩ 10 (some fiSample)).2.1.last_vscode_check = 10 :=
  (C6_throttled_against_last_success [⟨"code", 1⟩] ⟨0, none⟩ 10 (some fiSample)).2.1
    fiSample rfl (by decide)

/-- A realizable tick state: a fresh scan that resolved `discord` before
`code` (both tier 1; the stable tier sort keeps completion order). -/
def twoTierOneApps : List RunningApp := [⟨"discord", 1⟩, ⟨"code", 1⟩]

/-- C7 counterexample: with primary `discord` (not enrichable) but a `code`
process also among the matches, the fetch is still invoked
(`is_vscode_running` looks at every match, src/main.rs lines 177-179, 233)
and the cached enrichment record is retained rather than discarded. -/
theorem C7_fetch_despite_nonenrichable_primary :
    fresh_scan apps_to_check_main [some "discord", some "code"] = twoTierOneApps
    ∧ twoTierOneApps.head? = some ⟨"discord", 1⟩
    ∧ str_starts_with "discord" "code" = false
    ∧ (vscode_phase twoTierOneApps ⟨0, some fiSample⟩ 10 none).2.2 = true
    ∧ (vscode_phase twoTierOneApps ⟨0, some fiSample⟩ 10 none).2.1.cached_vscode_info
        = some fiSample := by
  refine ⟨by decide, by decide, by decide, by decide, by decide⟩

/-- C7 amended: the fetch is gated on some current match (not necessarily
the primary) being the enrichable application, and the cached record is
discarded exactly on ticks where no current match is enrichable: if any match
starts with "code" the record survives the tick (updated or kept), and if
none does, the fetch is not invoked and the record is cleared. -/
theorem C7_gating_is_any_match_not_primary (apps : List RunningApp) (st : VsState)
    (now : Nat) (fetch : Option FileInfo) :
    ((vscode_phase apps st now fetch).2.2 = true → is_vscode_running apps = true)
    ∧ (is_vscode_running apps = false →
        (vscode_phase apps st now fetch).2.1.cached_vscode_info = none
        ∧ (vscode_phase apps st now fetch).2.2 = false)
    ∧ (is_vscode_running apps = true → st.cached_vscode_info ≠ none →
        (vscode_phase apps st now fetch).2.1.cached_vscode_info ≠ none) := by
  unfold vscode_phase
  cases hr : is_vscode_running apps <;>
    cases he : elapsed_gt st.last_vscode_check now VSCODE_CHECK_INTERVAL_SECS <;>
      cases fetch <;> simp_all

/-- Witness for the amended C7: on a tick without any `code` match the cached
record is dropped. -/
theorem C7_witness :
    (vscode_phase [⟨"zen", 2⟩] ⟨0, some fiSample⟩ 10 none).2.1.cached_vscode_info = none :=
  ((C7_gating_is_any_match_not_primary [⟨"zen", 2⟩] ⟨0, some fiSample⟩ 10 none).2.1
    (by decide)).1

/-- C9: what one push subscriber receives (src/web_server.rs lines 60-83):
the first delivered state is always the canonical snapshot read while setting
up the subscription — the shared state after the `pre` publishes and the
`mid` publishes racing with the setup — so the state current at subscribe
time is never missed and precedes everything else delivered; the stream after
it is a suffix, in publish order, of the states published since the broadcast
subscription (the capacity-32 channel evicts the oldest pending values and a
lagged receiver's loop stops at `RecvError::Lagged`); and while the
subscriber is within the channel capacity the stream is exactly those
published states, so in particular every `post` state arrives after the
snapshot. -/
theorem C9_subscriber_gets_snapshot_then_stream (init : OutputData)
    (pre mid post : List OutputData) :
    (websocket_delivered init pre mid post).head?
        = some (applyPublishes init (pre ++ mid))
    ∧ List.IsSuffix (websocket_delivered init pre mid post).tail (mid ++ post)
    ∧ (mid.length + post.length ≤ BROADCAST_CAPACITY →
        websocket_delivered init pre mid post
          = applyPublishes init (pre ++ mid) :: (mid ++ post)) := by
  refine ⟨?_, ?_, fun h => websocket_delivered_within_cap init pre mid post h⟩
  · simp only [websocket_delivered, runPublishes_unsub, List.head?_cons]
    rw [runPublishes_fst, applyPublishes_append]
  · simp only [websocket_delivered, runPublishes_unsub, List.tail_cons]
    rw [← runPublishes_append]
    unfold drainStream
    split
    · exact List.nil_suffix
    · simpa using runPublishes_buf_suffix _ [] (mid ++ post) false

/-- Witness for C9 at a concrete input: one publish after subscribing, well
within the channel capacity, is delivered right after the initial snapshot. -/
theorem C9_witness :
    websocket_delivered initial_output [] [] [{ text := "idle" }]
      = initial_output :: [{ text := "idle" }] :=
  (C9_subscriber_gets_snapshot_then_stream initial_output [] [] [{ text := "idle" }]).2.2
    (by decide)

/-- C10: the state installed at startup reads "starting..." and is what every
pull query returns until the scheduler first publishes; and no tick of the
renderer can produce the text "starting..." — the idle text is "idle" and
every match of the hard-coded watch list renders either a fixed string never
equal to "starting..." or its own name, which starts with a watch name no
executable called "starting..." starts with. -/
theorem C10_starting_text_never_rendered (app : RunningApp) (fi : Option FileInfo)
    (h : apps_to_check_main.any (fun check => str_starts_with app.name check.name) = true) :
    get_presence (applyPublishes initial_output []) = initial_output
    ∧ initial_output.text = "starting..."
    ∧ render_output none fi ≠ "starting..."
    ∧ render_output (some app) fi ≠ "starting..." := by
  refine ⟨rfl, rfl, ?_, ?_⟩
  · show ("idle" : String) ≠ "starting..."
    decide
  show generate_app_text app fi ≠ "starting..."
  unfold generate_app_text
  simp only [apps_to_check_main, List.any_cons, List.any_nil, Bool.or_eq_true,
    Bool.or_false] at h
  split_ifs with h1 h2 h3 h4 h5 h6 h7 h8
  · cases fi with
    | none => decide
    | some f => exact editing_text_ne_starting f.file_name
  · decide
  · decide
  · decide
  · decide
  · decide
  · decide
  · decide
  · rcases h with h | h | h | h | h | h | h | h <;> simp_all

/-- Witness for C10: a detected `code` process renders "VS Code", never the
startup text. -/
theorem C10_witness :
    render_output (some ⟨"code", 1⟩) none ≠ "starting..." :=
  (C10_starting_text_never_rendered ⟨"code", 1⟩ none (by decide)).2.2.2
